import Mathlib

/-!
Verification of the grant-screening pipeline (serp_searcher.py, gemini_client.py,
sheets_writer.py, main.py) against its natural-language specification.

The Python code is shallowly embedded: pure string manipulation is modelled on
`List Char` with executable structural recursion, environment lookups become
`Option String` parameters, the external search and reasoning services become
function parameters (their outcome for the run is an input), and Python
exceptions become `Except String`.
-/

namespace GrantScreener

/- ### Python string primitives on character lists -/

/-- Python `str.lower()` (ASCII case mapping, as used on the names here). -/
def pyLower (s : String) : String := String.mk (s.data.map Char.toLower)

/-- Python `str.upper()` (ASCII case mapping). -/
def pyUpper (s : String) : String := String.mk (s.data.map Char.toUpper)

/-- Python `s[:n]`. -/
def pyTake (s : String) (n : Nat) : String := String.mk (s.data.take n)

/-- Here `startsWithL needle hay` is Python `hay.startswith(needle)`. -/
def startsWithL : List Char → List Char → Bool
  | [], _ => true
  | _ :: _, [] => false
  | p :: ps, c :: cs => p == c && startsWithL ps cs

/-- Here `containsSub needle hay` is Python `needle in hay` (substring test). -/
def containsSub (needle : List Char) : List Char → Bool
  | [] => needle.isEmpty
  | c :: cs => startsWithL needle (c :: cs) || containsSub needle cs

/-- Fuel-driven body of Python `str.replace` (leftmost, non-overlapping).
The fuel is the length of the scanned list, which bounds the recursion. -/
def replaceSubAux (pat repl : List Char) : Nat → List Char → List Char
  | 0, l => l
  | _, [] => []
  | fuel + 1, c :: rest =>
    if startsWithL pat (c :: rest) && !pat.isEmpty then
      repl ++ replaceSubAux pat repl fuel ((c :: rest).drop pat.length)
    else
      c :: replaceSubAux pat repl fuel rest

/-- Python `s.replace(pat, repl)` for a nonempty pattern (every call site here
passes a nonempty literal pattern). -/
def pyReplace (s pat repl : String) : String :=
  String.mk (replaceSubAux pat.data repl.data s.data.length s.data)

/-- Python `s.find(c)` for a single character, as an `Option` index. -/
def pyFind (l : List Char) (c : Char) : Option Nat := l.findIdx? (fun x => x = c)

/-- Python `s.rfind(c)` for a single character, as an `Option` index. -/
def pyRFind (l : List Char) (c : Char) : Option Nat :=
  match l.reverse.findIdx? (fun x => x = c) with
  | some i => some (l.length - 1 - i)
  | none => none

/-- Python `str.split()` with no argument: split on whitespace runs, dropping
empty pieces. `acc` holds the current word reversed. -/
def splitWsAux : List Char → List Char → List (List Char)
  | [], acc => if acc.isEmpty then [] else [acc.reverse]
  | c :: rest, acc =>
    if c.isWhitespace then
      if acc.isEmpty then splitWsAux rest []
      else acc.reverse :: splitWsAux rest []
    else splitWsAux rest (c :: acc)

/-- Python `" ".join(tokens)`. -/
def joinSpace : List (List Char) → List Char
  | [] => []
  | [t] => t
  | t :: ts => t ++ ' ' :: joinSpace ts

/-- Python `s.strip()`: drop whitespace from both ends. -/
def stripChars (l : List Char) : List Char :=
  ((l.dropWhile Char.isWhitespace).reverse.dropWhile Char.isWhitespace).reverse

/-- Python `sep.join(xs)` on strings. -/
def joinSep (sep : String) : List String → String
  | [] => ""
  | [x] => x
  | x :: xs => x ++ sep ++ joinSep sep xs

/- ### Data model (src/models.py) -/

/-- The `Classification` enum of src/models.py: RED = reject, YELLOW = review,
GREEN = accept/priority. -/
inductive Classification where
  | RED
  | YELLOW
  | GREEN
deriving DecidableEq, Repr

/-- The `Grant` dataclass of src/models.py. -/
structure Grant where
  id : String
  name : String
  foundation_name : String
  amount : Option ℚ
  website : Option String
  focus_area : Option String
  stage : String
deriving DecidableEq, Repr

/-- A JSON value as produced by `json.loads`. -/
inductive JsonValue where
  | str (s : String)
  | num (q : ℚ)
  | bool (b : Bool)
  | null
  | arr (items : List JsonValue)
  | obj (fields : List (String × JsonValue))
deriving Repr

/-- The `ScreeningResult` dataclass of src/models.py. `rationale` and
`confidence_score` are whatever JSON values the parsed response supplied
(Python does not enforce the annotations). -/
structure ScreeningResult where
  grant : Grant
  classification : Classification
  rationale : JsonValue
  confidence_score : JsonValue
  sources : List String

/- ### src/serp_searcher.py -/

/-- One organic search result as consumed by the code: `r.get("title", "")`,
`r.get("snippet", "")`, `r.get("link", "")`; an absent field is the empty
string. -/
structure Hit where
  title : String
  snippet : String
  link : String
deriving DecidableEq, Repr

/-- Result dictionary of `search_foundation`: the fixed keys `propublica`,
`granted`, `general` plus the `candid`/`causeiq` keys the priority loop adds,
and the `summary` string. -/
structure SearchResults where
  propublica : List Hit
  granted : List Hit
  candid : List Hit
  causeiq : List Hit
  general : List Hit
  summary : String
deriving DecidableEq, Repr

/-- The `PRIORITY_SITES` list of src/serp_searcher.py. -/
def PRIORITY_SITES : List (String × String) :=
  [("ProPublica", "site:projects.propublica.org/nonprofits"),
   ("Granted", "site:grantedai.com"),
   ("Candid", "site:candid.org"),
   ("CauseIQ", "site:causeiq.com")]

/-- The `removals` list of `_clean_name`, as token character lists. -/
def removals : List (List Char) :=
  ["inc".data, "c/o".data, "the".data, "llc".data, "ltd".data,
   "foundation".data, "trust".data, "corp".data]

/-- Embeds `_clean_name` of src/serp_searcher.py:
`tokens = name.lower().split(); cleaned = [t for t in tokens if t not in removals];`
`result = " ".join(cleaned).strip(); return result if result else name`. -/
def _clean_name (name : String) : String :=
  let tokens := splitWsAux (pyLower name).data []
  let cleaned := tokens.filter (fun t => decide (t ∉ removals))
  let result := stripChars (joinSpace cleaned)
  if result.isEmpty then name else String.mk result

/-- Embeds `_is_relevant` of src/serp_searcher.py. -/
def _is_relevant (r : Hit) (clean : String) : Bool :=
  let keywords := (splitWsAux (pyLower clean).data []).filter (fun w => w.length > 3)
  if keywords.isEmpty then true
  else
    let text := pyLower (r.title ++ " " ++ r.snippet)
    keywords.any (fun kw => containsSub kw text.data)

/-- The inline domain extraction used for websites and links:
`s.replace("https://", "").replace("http://", "").split("/")[0]`. -/
def stripDomain (s : String) : String :=
  String.mk ((pyReplace (pyReplace s "https://" "") "http://" "").data.takeWhile
    (fun c => c ≠ '/'))

/-- The per-site query string `f"{clean} {site_filter}"`. -/
def priorityQuery (clean site_filter : String) : String := clean ++ " " ++ site_filter

/-- One iteration of the priority loop: run the query and keep the first
relevant hit (`relevant[:1]`). `qfn` is the SerpAPI call. -/
def priorityTop (qfn : String → List Hit) (clean site_filter : String) : List Hit :=
  ((qfn (priorityQuery clean site_filter)).filter (fun h => _is_relevant h clean)).take 1

/-- The general fallback query
`f'"{clean}" foundation grants education NJ'` plus, when a website is known,
`f" OR site:{domain}"`. -/
def generalQuery (clean : String) (website : Option String) : String :=
  let base := "\"" ++ clean ++ "\" foundation grants education NJ"
  match website with
  | some w => if w ≠ "" then base ++ " OR site:" ++ stripDomain w else base
  | none => base

/-- One summary block, `f"[{source_key.upper()}] {title}\n{snippet}\nURL: {link}"`. -/
def sourceBlock (source_key : String) (r : Hit) : String :=
  "[" ++ pyUpper source_key ++ "] " ++ r.title ++ "\n" ++ r.snippet ++ "\nURL: " ++ r.link

/-- One iteration of the inner summary loop: append a block when the hit
carries a nonempty snippet. -/
def blockStep (source_key : String) (sn : List String) (r : Hit) : List String :=
  if r.snippet ≠ "" then sn ++ [sourceBlock source_key r] else sn

/-- The summary-building double loop of `search_foundation`: for each listed
source in order, append a block for every hit with a nonempty snippet. -/
def summaryBlocks (pairs : List (String × List Hit)) : List String :=
  pairs.foldl (fun snippets kv => kv.2.foldl (blockStep kv.1) snippets) []

/-- The site filter of the `i`-th entry of `PRIORITY_SITES`. -/
def siteFilter (i : Nat) : String := (PRIORITY_SITES.getD i ("", "")).2

/-- The body of `search_foundation` after the credential check: the four
priority queries (one kept relevant hit each), the general fallback when both
the ProPublica and the Granted lists are empty, and the summary string. The
second component is the ordered log of executed queries. -/
def searchCore (qfn : String → List Hit) (foundationName : String)
    (website : Option String) : SearchResults × List String :=
  let clean := _clean_name foundationName
  let pp := priorityTop qfn clean (siteFilter 0)
  let gr := priorityTop qfn clean (siteFilter 1)
  let cd := priorityTop qfn clean (siteFilter 2)
  let cq := priorityTop qfn clean (siteFilter 3)
  let priorityLog := PRIORITY_SITES.map (fun p => priorityQuery clean p.2)
  let runGeneral := pp.isEmpty && gr.isEmpty
  let gq := generalQuery clean website
  let gen :=
    if runGeneral then ((qfn gq).filter (fun h => _is_relevant h clean)).take 2 else []
  let log := priorityLog ++ (if runGeneral then [gq] else [])
  let blocks := summaryBlocks [("propublica", pp), ("granted", gr), ("general", gen)]
  let summary := if blocks.isEmpty then "No results found." else joinSep "\n\n" blocks
  ({ propublica := pp, granted := gr, candid := cd, causeiq := cq,
     general := gen, summary := summary }, log)

/-- Embeds `search_foundation` of src/serp_searcher.py. Here `apiKey` is
`os.getenv("SERPAPI_KEY")`; `qfn` is the SerpAPI query call (`_run_query`).
A missing or empty key raises (`Except.error`) before any query runs. -/
def search_foundation (apiKey : Option String) (qfn : String → List Hit)
    (foundationName : String) (website : Option String) :
    Except String (SearchResults × List String) :=
  if apiKey.getD "" = "" then
    .error "SERPAPI_KEY not set in environment."
  else
    .ok (searchCore qfn foundationName website)

/- ### src/gemini_client.py -/

/-- Outcome of a successful `generate_content` call: the response text plus
the grounding chunks; a chunk without a usable `web` attribute is `none`,
otherwise `(title, uri)`. An absent `grounding_metadata`/`grounding_chunks`
is the empty list. -/
structure GenResponse where
  text : String
  chunks : List (Option (String × String))

/-- Python `Classification[name]`: enum member lookup by exact name,
`KeyError` as `none`. -/
def classificationOfName (s : String) : Option Classification :=
  if s = "RED" then some .RED
  else if s = "YELLOW" then some .YELLOW
  else if s = "GREEN" then some .GREEN
  else none

/-- Append a string only when it is not already present (the shared shape of
the dict-based dedup and of the chunk loop's membership guard). -/
def dedupStep (acc : List String) (s : String) : List String :=
  if s ∈ acc then acc else acc ++ [s]

/-- Python `list(dict.fromkeys(l))`: deduplicate keeping first occurrences in order. -/
def dedupKeepFirst (l : List String) : List String := l.foldl dedupStep []

/-- One iteration of the grounding-chunk loop of `screen_grant`: a chunk with
a usable `web` contributes `f"{title} ({uri})"` when that exact string is new;
a chunk without one is skipped. -/
def mergeStep (acc : List String) (c : Option (String × String)) : List String :=
  match c with
  | some tu => dedupStep acc (tu.1 ++ " (" ++ tu.2 ++ ")")
  | none => acc

/-- The source-merging step of `screen_grant`: deduplicated SerpAPI sources
first, then up to `max 1 (5 - len)` grounding chunks, each formatted
`f"{title} ({uri})"` and appended only when that exact string is new. -/
def mergeSources (serpSources : List String) (chunks : List (Option (String × String))) :
    List String :=
  let sources := dedupKeepFirst serpSources
  let gemini_slots := max 1 (5 - sources.length)
  (chunks.take gemini_slots).foldl mergeStep sources

/-- The extraction step of `screen_grant`: the slice of the response text from
the first `'\x7b'` to the last `'\x7d'` inclusive, `none` when the indices are
missing or not in order (the `raise ValueError` path). -/
def extractJsonStr (text : String) : Option String :=
  match pyFind text.data '{', pyRFind text.data '}' with
  | some s, some e =>
    if s < e then some (String.mk ((text.data.drop s).take (e + 1 - s))) else none
  | some _, none => none
  | none, _ => none

/-- The fallback dict installed when extraction or `json.loads` fails:
`{"classification": "YELLOW", "rationale": text_response[:500], "confidence": 0.0}`. -/
def fallbackData (text : String) : List (String × JsonValue) :=
  [("classification", .str "YELLOW"), ("rationale", .str (pyTake text 500)),
   ("confidence", .num 0)]

/-- Python `data.get(key, default)` on the parsed JSON dict. -/
def dataGet (data : List (String × JsonValue)) (key : String) (default : JsonValue) :
    JsonValue :=
  match data.find? (fun kv => kv.1 = key) with
  | some kv => kv.2
  | none => default

/-- The guarded parse of `screen_grant`: extract the brace-delimited slice and
run `json.loads` (the `loads` parameter, `none` = raises); any failure yields
the fallback dict. -/
def parseData (loads : String → Option (List (String × JsonValue))) (text : String) :
    List (String × JsonValue) :=
  match extractJsonStr text with
  | some js =>
    match loads js with
    | some d => d
    | none => fallbackData text
  | none => fallbackData text

/-- Python `data.get("classification", "YELLOW").upper()` then `Classification[...]`
with `KeyError` defaulting to YELLOW. A non-string value makes `.upper()`
raise (`Except.error`), which escapes to the outer handler. -/
def resolveClassification (v : JsonValue) : Except String Classification :=
  match v with
  | .str s => .ok ((classificationOfName (pyUpper s)).getD Classification.YELLOW)
  | _ => .error "AttributeError: object has no attribute upper"

/-- The per-hit source string `f"{domain} ({r['link']})"`. -/
def sourceEntry (link : String) : String := stripDomain link ++ " (" ++ link ++ ")"

/-- The source-list loop of `screen_grant`: over the keys
`propublica, granted, candid, causeiq, general` in order, one entry per hit
with a nonempty link. -/
def buildSerpSources (res : SearchResults) : List String :=
  ((res.propublica ++ res.granted ++ res.candid ++ res.causeiq ++ res.general).filter
    (fun r => r.link ≠ "")).map (fun r => sourceEntry r.link)

/-- The except-branch result of `screen_grant`: REVIEW with confidence 0.0,
an error-describing rationale, and the raw SerpAPI source list. -/
def errorResult (grant : Grant) (e : String) (serpSources : List String) :
    ScreeningResult :=
  { grant := grant, classification := .YELLOW,
    rationale := .str ("Error during screening: " ++ e),
    confidence_score := .num 0, sources := serpSources }

/-- The body of the outer `try` of `screen_grant` after the reasoning call
succeeded: parse, resolve the classification, merge sources, build the result.
An exception inside (non-string classification) is `Except.error`. -/
def screenGrantOk (loads : String → Option (List (String × JsonValue)))
    (grant : Grant) (resp : GenResponse) (serpSources : List String) :
    Except String ScreeningResult :=
  let data := parseData loads resp.text
  match resolveClassification (dataGet data "classification" (.str "YELLOW")) with
  | .error e => .error e
  | .ok classification =>
    .ok { grant := grant, classification := classification,
          rationale := dataGet data "rationale" (.str "No rationale provided."),
          confidence_score := dataGet data "confidence" (.num 0),
          sources := mergeSources serpSources resp.chunks }

/-- The SerpAPI step of `screen_grant`, guarded by its own `try`: a failure
(including a missing `SERPAPI_KEY`) leaves the source list empty and screening
proceeds. -/
def serpSourcesOf (serpApiKey : Option String) (qfn : String → List Hit)
    (grant : Grant) : List String :=
  match search_foundation serpApiKey qfn grant.foundation_name grant.website with
  | .error _ => []
  | .ok rl => buildSerpSources rl.1

/-- Embeds `screen_grant` of src/gemini_client.py. Here `serpApiKey` is the environment's
`SERPAPI_KEY`; `qfn` the SerpAPI call; `loads` is `json.loads`; `gemini` is the
outcome of the `generate_content` call on this candidate's prompt. Any error
of the reasoning step yields `errorResult`. -/
def screen_grant (serpApiKey : Option String) (qfn : String → List Hit)
    (loads : String → Option (List (String × JsonValue)))
    (gemini : Except String GenResponse) (grant : Grant) : ScreeningResult :=
  let serpSources := serpSourcesOf serpApiKey qfn grant
  match gemini with
  | .error e => errorResult grant e serpSources
  | .ok resp =>
    match screenGrantOk loads grant resp serpSources with
    | .ok r => r
    | .error e => errorResult grant e serpSources

/-- The per-candidate loop of main.py: every grant is screened in order and
contributes exactly one result; `geminiFor` gives the reasoning outcome per
grant. -/
def runScreening (serpApiKey : Option String) (qfn : String → List Hit)
    (loads : String → Option (List (String × JsonValue)))
    (geminiFor : Grant → Except String GenResponse) (grants : List Grant) :
    List ScreeningResult :=
  grants.map (fun g => screen_grant serpApiKey qfn loads (geminiFor g) g)

/- ### src/sheets_writer.py -/

/-- The `SKIP_DOMAINS` tuple of `SheetsWriter._extract_urls`. -/
def SKIP_DOMAINS : List String :=
  ["vertexaisearch.cloud.google.com", "google.com/search"]

/-- The per-source URL extraction of `_extract_urls`: the slice between the
first `'('` and the final `')'` when both are present, else the whole string. -/
def extractUrl (s : String) : String :=
  match pyFind s.data '(' with
  | some i =>
    if s.data.getLast? = some ')' then String.mk ((s.data.drop (i + 1)).dropLast)
    else s
  | none => s

/-- One iteration of the `_extract_urls` loop: keep the extracted URL when it
is nonempty, not collected yet, and matches no denylisted domain. -/
def urlStep (urls : List String) (s : String) : List String :=
  if extractUrl s ≠ "" ∧ extractUrl s ∉ urls ∧
      (SKIP_DOMAINS.any (fun d => containsSub d.data (extractUrl s).data)) = false
  then urls ++ [extractUrl s] else urls

/-- Embeds `SheetsWriter._extract_urls`: collect the extracted URLs, skipping empty
strings, URLs already collected, and URLs containing a denylisted domain. -/
def _extract_urls (sources : Option (List String)) : List String :=
  match sources with
  | none => []
  | some srcs => srcs.foldl urlStep []

/- ### Spec-side decision table -/

/-- Modelled from the spec: the section 4.3 decision table (first match wins),
stated here only for comparison with the code's classification resolution.
RED = REJECT, YELLOW = REVIEW, GREEN = ACCEPT. -/
def decisionTableSpec (hard_red soft_red : Bool) (green_count threshold : Nat) :
    Classification :=
  if hard_red then .RED
  else if soft_red ∧ green_count = 0 then .RED
  else if soft_red then .YELLOW
  else if green_count ≥ threshold then .GREEN
  else .YELLOW

/- ### Concrete fixtures used by witnesses and counterexamples -/

/-- A query function returning no hits. -/
def qfn0 : String → List Hit := fun _ => []

/-- A `json.loads` stand-in that always fails. -/
def loads0 : String → Option (List (String × JsonValue)) := fun _ => none

/-- A sample backlog candidate. -/
def grant0 : Grant := ⟨"1", "Acme Zebra", "Acme Zebra", none, none, none, "LOI Backlog"⟩

def jsonC4 : String := "\x7b\"classification\": \"GREEN\"\x7d"

def loadsC4 : String → Option (List (String × JsonValue)) :=
  fun s => if s = jsonC4 then some [("classification", .str "GREEN")] else none

def respC4 : GenResponse := ⟨jsonC4, []⟩

def jsonC2 : String :=
  "\x7b\"classification\": \"PURPLE\", \"rationale\": \"r\", \"confidence\": 0.9\x7d"

def loadsC2 : String → Option (List (String × JsonValue)) :=
  fun s => if s = jsonC2 then
    some [("classification", .str "PURPLE"), ("rationale", .str "r"),
          ("confidence", .num (9 / 10))]
  else none

def respC2 : GenResponse := ⟨jsonC2, []⟩

def jsonC1w : String := "\x7b\"classification\": \"red\"\x7d"

def loadsC1w : String → Option (List (String × JsonValue)) :=
  fun s => if s = jsonC1w then some [("classification", .str "red")] else none

def jsonC1 : String :=
  "\x7b\"classification\": \"GREEN\", \"rationale\": \"Red flags: R1a. Green flags: 0/8. Closed.\"\x7d"

def loadsC1 : String → Option (List (String × JsonValue)) :=
  fun s => if s = jsonC1 then
    some [("classification", .str "GREEN"),
          ("rationale", .str "Red flags: R1a. Green flags: 0/8. Closed.")]
  else none

def respC1 : GenResponse := ⟨jsonC1, []⟩

def hitC3 : Hit := ⟨"Acme Zebra 990", "acme zebra filing", "https://example.com/a"⟩

def qfnC3 : String → List Hit :=
  fun q => if q = "acme zebra site:projects.propublica.org/nonprofits" then [hitC3]
  else []

def respC3 : GenResponse := ⟨"x", [some ("Example Site", "https://example.com/a")]⟩

def hitC5 : Hit := ⟨"Acme Zebra Fund", "acme zebra grantmaking", "https://candid.org/x"⟩

def hitC5g : Hit := ⟨"Acme Zebra", "acme zebra general", "https://acme.example/y"⟩

def qfnC5 : String → List Hit := fun q =>
  if q = "acme zebra site:candid.org" then [hitC5]
  else if q = "\"acme zebra\" foundation grants education NJ" then [hitC5g]
  else []

/- ### C7 -/

/-- The blocks contributed by one source list: one block per retained hit with
a nonempty snippet, in list order. -/
def digestBlocks (source_key : String) (hits : List Hit) : List String :=
  (hits.filter (fun r => decide (r.snippet ≠ ""))).map (sourceBlock source_key)

/-- The digest described by the amended claim, stated independently of the
summary loop: blocks of the ProPublica, Granted and general lists only (in
that order), joined by blank lines, with the sentinel for an empty block
list. -/
def digestSpec (res : SearchResults) : String :=
  let blocks := digestBlocks "propublica" res.propublica ++
    digestBlocks "granted" res.granted ++ digestBlocks "general" res.general
  if blocks = [] then "No results found." else joinSep "\n\n" blocks

def hitC7 : Hit := ⟨"Acme Zebra Fund", "acme zebra grants", "https://candid.org/x"⟩

def qfnC7 : String → List Hit := fun q =>
  if q = "acme zebra site:candid.org" then [hitC7] else []

def respC8 : GenResponse :=
  ⟨"x", [some ("T", "https://vertexaisearch.cloud.google.com/grounding-api-redirect/xyz")]⟩

/- ### Helper lemmas -/

theorem parseData_of_fail {loads : String → Option (List (String × JsonValue))}
    {text : String} (h : (extractJsonStr text).bind loads = none) :
    parseData loads text = fallbackData text := by
  unfold parseData
  cases hx : extractJsonStr text with
  | none => rfl
  | some js =>
    rw [hx] at h
    simp only [Option.some_bind] at h
    simp [h]

theorem parseData_of_some {loads : String → Option (List (String × JsonValue))}
    {text : String} {d : List (String × JsonValue)}
    (h : (extractJsonStr text).bind loads = some d) :
    parseData loads text = d := by
  unfold parseData
  cases hx : extractJsonStr text with
  | none => rw [hx] at h; simp at h
  | some js =>
    rw [hx] at h
    simp only [Option.some_bind] at h
    simp [h]

theorem screen_grant_of_ok (key : Option String) (qfn : String → List Hit)
    (loads : String → Option (List (String × JsonValue)))
    (resp : GenResponse) (grant : Grant) :
    screen_grant key qfn loads (.ok resp) grant =
      match screenGrantOk loads grant resp (serpSourcesOf key qfn grant) with
      | .ok r => r
      | .error e => errorResult grant e (serpSourcesOf key qfn grant) := rfl

/- ### C10 -/

theorem ite_mk_ne_empty (name : String) (res : List Char) (h : name ≠ "") :
    (if res.isEmpty then name else String.mk res) ≠ "" := by
  by_cases he : res.isEmpty = true
  · simpa [he] using h
  · rw [if_neg he]
    intro hc
    have hnil : res = [] := congrArg String.data hc
    rw [hnil] at he
    exact he rfl

/-- C10: for every nonempty input name, `_clean_name` returns a nonempty
string — when stripping removes every token the original name is returned in
place of the empty string. -/
theorem c10_clean_name_nonempty (name : String) (h : name ≠ "") :
    _clean_name name ≠ "" := by
  unfold _clean_name
  exact ite_mk_ne_empty name _ h

/-- Witness for C10 at a concrete input whose tokens are all noise. -/
theorem c10_witness : "The Inc" ≠ "" ∧ _clean_name "The Inc" ≠ "" :=
  ⟨by decide, c10_clean_name_nonempty "The Inc" (by decide)⟩

/- ### C6 -/

/-- C6: every error of the reasoning-service call makes `screen_grant` return
a REVIEW (YELLOW) result with confidence 0.0 and an error-describing
rationale, and the per-candidate loop still yields one result per grant, so
the run continues. -/
theorem c6_reasoning_error_recovered (key : Option String) (qfn : String → List Hit)
    (loads : String → Option (List (String × JsonValue)))
    (geminiFor : Grant → Except String GenResponse) (grants : List Grant)
    (g : Grant) (e : String) (h : geminiFor g = .error e) :
    (screen_grant key qfn loads (geminiFor g) g).classification = .YELLOW ∧
    (screen_grant key qfn loads (geminiFor g) g).rationale =
      .str ("Error during screening: " ++ e) ∧
    (screen_grant key qfn loads (geminiFor g) g).confidence_score = .num 0 ∧
    (runScreening key qfn loads geminiFor grants).length = grants.length := by
  rw [h]
  exact ⟨rfl, rfl, rfl, by simp [runScreening]⟩

/-- Witness for C6: a concrete failing reasoning call. -/
theorem c6_witness :
    (screen_grant none qfn0 loads0
      ((fun _ : Grant => (Except.error "boom" : Except String GenResponse)) grant0)
      grant0).classification = .YELLOW ∧
    (runScreening none qfn0 loads0 (fun _ => .error "boom") [grant0]).length = 1 := by
  have h := c6_reasoning_error_recovered none qfn0 loads0 (fun _ => .error "boom")
    [grant0] grant0 "boom" rfl
  exact ⟨h.1, h.2.2.2⟩

/- ### C4 -/

/-- C4 (amended): a missing `SERPAPI_KEY` makes `search_foundation` fail with
a configuration error whose result does not depend on the query function (so
no query executed), but the error is not fatal to the run: screening still
yields one result per candidate. -/
theorem c4_missing_key (qfn qfn2 : String → List Hit) (name : String)
    (web : Option String) (loads : String → Option (List (String × JsonValue)))
    (geminiFor : Grant → Except String GenResponse) (grants : List Grant) :
    search_foundation none qfn name web = .error "SERPAPI_KEY not set in environment." ∧
    search_foundation none qfn name web = search_foundation none qfn2 name web ∧
    (runScreening none qfn loads geminiFor grants).length = grants.length :=
  ⟨rfl, rfl, by simp [runScreening]⟩

/-- Counterexample for C4: with `SERPAPI_KEY` missing the configuration error
is raised, yet the candidate is still fully screened (here to ACCEPT/GREEN):
the run does not stop and the error is not surfaced by `screen_grant`. -/
theorem c4_counterexample :
    search_foundation none qfn0 grant0.foundation_name grant0.website =
      .error "SERPAPI_KEY not set in environment." ∧
    (screen_grant none qfn0 loadsC4 (.ok respC4) grant0).classification = .GREEN :=
  ⟨rfl, rfl⟩

/- ### C2 -/

/-- C2 (amended): when no well-formed JSON object is found between the first
brace and the last brace of the response text (extraction fails or
`json.loads` fails), `screen_grant` returns REVIEW (YELLOW) with confidence
0.0 and the response text truncated to 500 characters as rationale, without
raising. The absent/unrecognized-classification case keeps the parsed
rationale and confidence instead (see the counterexample). -/
theorem c2_parse_failure_fallback (key : Option String) (qfn : String → List Hit)
    (loads : String → Option (List (String × JsonValue)))
    (resp : GenResponse) (grant : Grant)
    (h : (extractJsonStr resp.text).bind loads = none) :
    (screen_grant key qfn loads (.ok resp) grant).classification = .YELLOW ∧
    (screen_grant key qfn loads (.ok resp) grant).rationale =
      .str (pyTake resp.text 500) ∧
    (screen_grant key qfn loads (.ok resp) grant).confidence_score = .num 0 := by
  have hok : screenGrantOk loads grant resp (serpSourcesOf key qfn grant) =
      .ok { grant := grant, classification := .YELLOW,
            rationale := .str (pyTake resp.text 500),
            confidence_score := .num 0,
            sources := mergeSources (serpSourcesOf key qfn grant) resp.chunks } := by
    unfold screenGrantOk
    rw [parseData_of_fail h]
    rfl
  rw [screen_grant_of_ok, hok]
  exact ⟨rfl, rfl, rfl⟩

/-- Witness for C2: a response with no JSON object at all. -/
theorem c2_witness :
    (extractJsonStr (GenResponse.mk "no json here" []).text).bind loads0 = none ∧
    (screen_grant none qfn0 loads0 (.ok ⟨"no json here", []⟩) grant0).classification =
      .YELLOW ∧
    (screen_grant none qfn0 loads0 (.ok ⟨"no json here", []⟩) grant0).rationale =
      .str (pyTake "no json here" 500) ∧
    (screen_grant none qfn0 loads0 (.ok ⟨"no json here", []⟩) grant0).confidence_score =
      .num 0 := by
  have h := c2_parse_failure_fallback none qfn0 loads0 ⟨"no json here", []⟩ grant0 rfl
  exact ⟨rfl, h.1, h.2.1, h.2.2⟩

/-- Counterexample for C2: a well-formed JSON object whose classification
string is unrecognized. The claim demands confidence 0.0 and a truncated-raw
rationale; the code keeps the parsed confidence 0.9 and the parsed rationale,
defaulting only the classification to YELLOW. -/
theorem c2_counterexample :
    (screen_grant none qfn0 loadsC2 (.ok respC2) grant0).classification = .YELLOW ∧
    (screen_grant none qfn0 loadsC2 (.ok respC2) grant0).confidence_score =
      .num (9 / 10) ∧
    (screen_grant none qfn0 loadsC2 (.ok respC2) grant0).rationale = .str "r" ∧
    (9 / 10 : ℚ) ≠ 0 ∧ "r" ≠ pyTake respC2.text 500 :=
  ⟨rfl, rfl, rfl, by norm_num, by decide⟩

/- ### C1 -/

/-- C1 (amended): the engine does not re-apply the decision policy; whenever
the parsed response carries a recognized classification string, the returned
result's classification is exactly that upstream classification — independent
of any decision-table inputs. Unrecognized strings default to YELLOW. -/
theorem c1_trusts_upstream_classification (key : Option String)
    (qfn : String → List Hit) (loads : String → Option (List (String × JsonValue)))
    (resp : GenResponse) (grant : Grant) (data : List (String × JsonValue))
    (s : String) (c : Classification)
    (h1 : (extractJsonStr resp.text).bind loads = some data)
    (h2 : dataGet data "classification" (.str "YELLOW") = .str s)
    (h3 : classificationOfName (pyUpper s) = some c) :
    (screen_grant key qfn loads (.ok resp) grant).classification = c := by
  have hok : screenGrantOk loads grant resp (serpSourcesOf key qfn grant) =
      .ok { grant := grant, classification := c,
            rationale := dataGet data "rationale" (.str "No rationale provided."),
            confidence_score := dataGet data "confidence" (.num 0),
            sources := mergeSources (serpSourcesOf key qfn grant) resp.chunks } := by
    unfold screenGrantOk
    rw [parseData_of_some h1]
    simp only [h2, resolveClassification, h3, Option.getD_some]
  rw [screen_grant_of_ok, hok]

/-- Witness for C1 (amended): a lowercase upstream "red" is uppercased and
returned as REJECT (RED). -/
theorem c1_witness :
    ((extractJsonStr (GenResponse.mk jsonC1w []).text).bind loadsC1w =
      some [("classification", .str "red")]) ∧
    (screen_grant none qfn0 loadsC1w (.ok ⟨jsonC1w, []⟩) grant0).classification =
      .RED := by
  refine ⟨rfl, c1_trusts_upstream_classification none qfn0 loadsC1w ⟨jsonC1w, []⟩
    grant0 [("classification", .str "red")] "red" .RED rfl rfl rfl⟩

/-- Counterexample for C1: a response whose rationale reports a hard red flag
(R1a fired, so the section 4.3 table demands REJECT for every threshold) but
whose stated classification is GREEN. The engine returns GREEN: it trusts the
upstream field and does not re-apply the decision table. -/
theorem c1_counterexample :
    (screen_grant none qfn0 loadsC1 (.ok respC1) grant0).classification = .GREEN ∧
    (screen_grant none qfn0 loadsC1 (.ok respC1) grant0).rationale =
      .str "Red flags: R1a. Green flags: 0/8. Closed." ∧
    decisionTableSpec true false 0 4 = .RED ∧
    Classification.GREEN ≠ Classification.RED :=
  ⟨rfl, rfl, rfl, by decide⟩

/- ### C3 -/

theorem dedupStep_cases (acc : List String) (s : String) :
    dedupStep acc s = acc ∨ (dedupStep acc s = acc ++ [s] ∧ s ∉ acc) := by
  unfold dedupStep
  by_cases h : s ∈ acc
  · left; rw [if_pos h]
  · right; exact ⟨if_neg h, h⟩

theorem mergeStep_cases (acc : List String) (c : Option (String × String)) :
    mergeStep acc c = acc ∨ ∃ s, mergeStep acc c = acc ++ [s] ∧ s ∉ acc := by
  cases c with
  | none => left; rfl
  | some tu =>
    rcases dedupStep_cases acc (tu.1 ++ " (" ++ tu.2 ++ ")") with h | ⟨h, hm⟩
    · left; exact h
    · right; exact ⟨_, h, hm⟩

theorem foldl_mergeStep_take (cs : List (Option (String × String))) :
    ∀ (acc : List String) (k : Nat), k ≤ acc.length →
      (cs.foldl mergeStep acc).take k = acc.take k := by
  induction cs with
  | nil => intro acc k _; rfl
  | cons c cs ih =>
    intro acc k hk
    rw [List.foldl_cons]
    rcases mergeStep_cases acc c with h | ⟨s, h, _⟩
    · rw [h]; exact ih acc k hk
    · rw [h, ih (acc ++ [s]) k (by rw [List.length_append]; omega)]
      exact List.take_append_of_le_length hk

theorem foldl_mergeStep_length (cs : List (Option (String × String))) :
    ∀ acc : List String, (cs.foldl mergeStep acc).length ≤ acc.length + cs.length := by
  induction cs with
  | nil => intro acc; simp
  | cons c cs ih =>
    intro acc
    rw [List.foldl_cons]
    rcases mergeStep_cases acc c with h | ⟨s, h, _⟩
    · rw [h]
      calc (cs.foldl mergeStep acc).length ≤ acc.length + cs.length := ih acc
        _ ≤ acc.length + (c :: cs).length := by simp
    · rw [h]
      calc (cs.foldl mergeStep (acc ++ [s])).length
          ≤ (acc ++ [s]).length + cs.length := ih _
        _ = acc.length + (c :: cs).length := by
            simp only [List.length_append, List.length_cons, List.length_nil]; omega

theorem foldl_mergeStep_nodup (cs : List (Option (String × String))) :
    ∀ acc : List String, acc.Nodup → (cs.foldl mergeStep acc).Nodup := by
  induction cs with
  | nil => intro acc h; exact h
  | cons c cs ih =>
    intro acc h
    rw [List.foldl_cons]
    rcases mergeStep_cases acc c with heq | ⟨s, heq, hmem⟩
    · rw [heq]; exact ih acc h
    · rw [heq]
      refine ih _ ?_
      rw [← List.concat_eq_append]
      exact List.Nodup.concat hmem h

theorem foldl_dedupStep_nodup (l : List String) :
    ∀ acc : List String, acc.Nodup → (l.foldl dedupStep acc).Nodup := by
  induction l with
  | nil => intro acc h; exact h
  | cons s l ih =>
    intro acc h
    rw [List.foldl_cons]
    rcases dedupStep_cases acc s with heq | ⟨heq, hmem⟩
    · rw [heq]; exact ih acc h
    · rw [heq]
      refine ih _ ?_
      rw [← List.concat_eq_append]
      exact List.Nodup.concat hmem h

theorem dedupKeepFirst_nodup (l : List String) : (dedupKeepFirst l).Nodup :=
  foldl_dedupStep_nodup l [] List.nodup_nil

/-- C3 (amended): the merged source list starts with exactly the evidence
citations (deduplicated by formatted source string, first occurrences kept, in
source-priority order), never repeats a formatted source string, and has
length at most `n + max 1 (5 - n)` where `n` counts the deduplicated evidence
citations — so at most 5 whenever `n ≤ 4`, but `n + 1` when `n ≥ 5`.
Deduplication compares whole `"label (url)"` strings, not URLs, so two
entries may still carry the same URL (see the counterexample). -/
theorem c3_merged_sources_shape (serp : List String)
    (chunks : List (Option (String × String))) :
    (mergeSources serp chunks).take (dedupKeepFirst serp).length =
      dedupKeepFirst serp ∧
    (mergeSources serp chunks).Nodup ∧
    (mergeSources serp chunks).length ≤
      (dedupKeepFirst serp).length + max 1 (5 - (dedupKeepFirst serp).length) := by
  simp only [mergeSources]
  refine ⟨?_, ?_, ?_⟩
  · rw [foldl_mergeStep_take _ _ _ (le_refl _), List.take_length]
  · exact foldl_mergeStep_nodup _ _ (dedupKeepFirst_nodup serp)
  · calc ((chunks.take (max 1 (5 - (dedupKeepFirst serp).length))).foldl
          mergeStep (dedupKeepFirst serp)).length
        ≤ (dedupKeepFirst serp).length +
          (chunks.take (max 1 (5 - (dedupKeepFirst serp).length))).length :=
          foldl_mergeStep_length _ _
      _ ≤ (dedupKeepFirst serp).length + max 1 (5 - (dedupKeepFirst serp).length) := by
          rw [List.length_take]; omega

/-- Counterexample for C3: an evidence citation and a reasoning citation with
the same URL but different labels are both kept — the merged list contains a
duplicate URL, because the skip test compares formatted strings, not URLs. -/
theorem c3_counterexample :
    (screen_grant (some "k") qfnC3 loads0 (.ok respC3) grant0).sources =
      ["example.com (https://example.com/a)",
       "Example Site (https://example.com/a)"] ∧
    extractUrl "example.com (https://example.com/a)" = "https://example.com/a" ∧
    extractUrl "Example Site (https://example.com/a)" = "https://example.com/a" :=
  ⟨rfl, rfl, rfl⟩

/- ### C5 -/

theorem searchCore_propublica (qfn : String → List Hit) (name : String)
    (web : Option String) :
    (searchCore qfn name web).1.propublica =
      priorityTop qfn (_clean_name name) (siteFilter 0) := rfl

theorem searchCore_granted (qfn : String → List Hit) (name : String)
    (web : Option String) :
    (searchCore qfn name web).1.granted =
      priorityTop qfn (_clean_name name) (siteFilter 1) := rfl

theorem searchCore_general (qfn : String → List Hit) (name : String)
    (web : Option String) :
    (searchCore qfn name web).1.general =
      (if (priorityTop qfn (_clean_name name) (siteFilter 0)).isEmpty &&
          (priorityTop qfn (_clean_name name) (siteFilter 1)).isEmpty then
        ((qfn (generalQuery (_clean_name name) web)).filter
          (fun h => _is_relevant h (_clean_name name))).take 2
      else []) := rfl

theorem searchCore_log (qfn : String → List Hit) (name : String)
    (web : Option String) :
    (searchCore qfn name web).2 =
      PRIORITY_SITES.map (fun p => priorityQuery (_clean_name name) p.2) ++
        (if (priorityTop qfn (_clean_name name) (siteFilter 0)).isEmpty &&
            (priorityTop qfn (_clean_name name) (siteFilter 1)).isEmpty then
          [generalQuery (_clean_name name) web]
        else []) := rfl

theorem search_foundation_valid_key (k : String) (qfn : String → List Hit)
    (name : String) (web : Option String) (hk : k ≠ "") :
    search_foundation (some k) qfn name web = .ok (searchCore qfn name web) := by
  unfold search_foundation
  simp only [Option.getD_some]
  rw [if_neg hk]

/-- C5 (amended): with a valid credential, the single general-web fallback
query executes iff both the ProPublica and the Granted lists are empty — the
Candid and CauseIQ results are not consulted. The fallback query is
`generalQuery`: the quoted normalized name with domain keywords, plus an OR
site clause when a website is known; at most 2 relevant general hits are
retained. -/
theorem c5_general_fallback_condition (k : String) (qfn : String → List Hit)
    (name : String) (web : Option String) (hk : k ≠ "") :
    search_foundation (some k) qfn name web = .ok (searchCore qfn name web) ∧
    ((searchCore qfn name web).1.propublica = [] ∧
        (searchCore qfn name web).1.granted = [] →
      (searchCore qfn name web).2 =
        PRIORITY_SITES.map (fun p => priorityQuery (_clean_name name) p.2) ++
          [generalQuery (_clean_name name) web] ∧
      (searchCore qfn name web).1.general =
        ((qfn (generalQuery (_clean_name name) web)).filter
          (fun h => _is_relevant h (_clean_name name))).take 2) ∧
    (¬((searchCore qfn name web).1.propublica = [] ∧
        (searchCore qfn name web).1.granted = []) →
      (searchCore qfn name web).2 =
        PRIORITY_SITES.map (fun p => priorityQuery (_clean_name name) p.2) ∧
      (searchCore qfn name web).1.general = []) ∧
    (searchCore qfn name web).1.general.length ≤ 2 := by
  refine ⟨search_foundation_valid_key k qfn name web hk, ?_, ?_, ?_⟩
  · intro h
    obtain ⟨h1, h2⟩ := h
    rw [searchCore_propublica] at h1
    rw [searchCore_granted] at h2
    have hb : ((priorityTop qfn (_clean_name name) (siteFilter 0)).isEmpty &&
        (priorityTop qfn (_clean_name name) (siteFilter 1)).isEmpty) = true := by
      rw [Bool.and_eq_true, List.isEmpty_iff, List.isEmpty_iff]
      exact ⟨h1, h2⟩
    constructor
    · rw [searchCore_log, hb]; simp
    · rw [searchCore_general, hb]; simp
  · intro h
    cases hB : ((priorityTop qfn (_clean_name name) (siteFilter 0)).isEmpty &&
        (priorityTop qfn (_clean_name name) (siteFilter 1)).isEmpty) with
    | true =>
      exfalso
      rw [Bool.and_eq_true, List.isEmpty_iff, List.isEmpty_iff] at hB
      exact h ⟨by rw [searchCore_propublica]; exact hB.1,
               by rw [searchCore_granted]; exact hB.2⟩
    | false =>
      constructor
      · rw [searchCore_log, hB]; simp
      · rw [searchCore_general, hB]; simp
  · rw [searchCore_general]
    split
    · rw [List.length_take]
      exact Nat.min_le_left _ _
    · simp

/-- Witness for C5 at a concrete input (all queries empty, so the fallback
runs and retains nothing). -/
theorem c5_witness :
    search_foundation (some "k") qfn0 "Acme Zebra" none =
      .ok (searchCore qfn0 "Acme Zebra" none) ∧
    (searchCore qfn0 "Acme Zebra" none).1.general.length ≤ 2 := by
  have h := c5_general_fallback_condition "k" qfn0 "Acme Zebra" none (by decide)
  exact ⟨h.1, h.2.2.2⟩

/-- Counterexample for C5: the Candid priority source returns a relevant hit
(so not all priority sources returned zero relevant hits), yet the general
fallback query still executes and retains a hit — the condition consults only
the ProPublica and Granted lists. -/
theorem c5_counterexample :
    (search_foundation (some "k") qfnC5 "Acme Zebra" none).map
      (fun p => (p.1.candid.length, p.1.general.length, p.2.length)) =
      .ok (1, 1, 5) := rfl

theorem foldl_blockStep (source_key : String) (hits : List Hit) :
    ∀ sn : List String,
      hits.foldl (blockStep source_key) sn = sn ++ digestBlocks source_key hits := by
  induction hits with
  | nil => intro sn; simp [digestBlocks]
  | cons r hits ih =>
    intro sn
    rw [List.foldl_cons]
    by_cases h : r.snippet ≠ ""
    · rw [show blockStep source_key sn r = sn ++ [sourceBlock source_key r] from
        if_pos h]
      rw [ih (sn ++ [sourceBlock source_key r])]
      simp [digestBlocks, List.filter_cons, h]
    · rw [show blockStep source_key sn r = sn from if_neg h]
      rw [ih sn]
      simp [digestBlocks, List.filter_cons, h]

theorem summaryBlocks_eq (pp gr gen : List Hit) :
    summaryBlocks [("propublica", pp), ("granted", gr), ("general", gen)] =
      digestBlocks "propublica" pp ++ digestBlocks "granted" gr ++
        digestBlocks "general" gen := by
  unfold summaryBlocks
  rw [List.foldl_cons, List.foldl_cons, List.foldl_cons, List.foldl_nil]
  rw [foldl_blockStep, foldl_blockStep, foldl_blockStep]
  simp [List.append_assoc]

theorem digest_of_core (pp gr cd cq gen : List Hit) :
    (SearchResults.mk pp gr cd cq gen
      (if (summaryBlocks
            [("propublica", pp), ("granted", gr), ("general", gen)]).isEmpty
       then "No results found."
       else joinSep "\n\n" (summaryBlocks
            [("propublica", pp), ("granted", gr), ("general", gen)]))).summary =
      digestSpec (SearchResults.mk pp gr cd cq gen
        (if (summaryBlocks
              [("propublica", pp), ("granted", gr), ("general", gen)]).isEmpty
         then "No results found."
         else joinSep "\n\n" (summaryBlocks
              [("propublica", pp), ("granted", gr), ("general", gen)]))) := by
  simp only [digestSpec, summaryBlocks_eq, List.isEmpty_iff]

/-- C7 (amended): the digest (`summary`) equals the blank-line join of the
`"[SOURCE] title\nsnippet\nURL: url"` blocks of the retained ProPublica,
Granted and general hits with nonempty snippets, in that order — the Candid
and CauseIQ hits are retained in the result but never digested — with the
literal sentinel "No results found." when no block exists. -/
theorem c7_summary_shape (k : String) (qfn : String → List Hit) (name : String)
    (web : Option String) (hk : k ≠ "") :
    search_foundation (some k) qfn name web = .ok (searchCore qfn name web) ∧
    (searchCore qfn name web).1.summary = digestSpec (searchCore qfn name web).1 := by
  refine ⟨search_foundation_valid_key k qfn name web hk, ?_⟩
  exact digest_of_core _ _ _ _ _

/-- Witness for C7 at a concrete input. -/
theorem c7_witness :
    search_foundation (some "k") qfnC3 "Acme Zebra" none =
      .ok (searchCore qfnC3 "Acme Zebra" none) ∧
    (searchCore qfnC3 "Acme Zebra" none).1.summary =
      digestSpec (searchCore qfnC3 "Acme Zebra" none).1 :=
  c7_summary_shape "k" qfnC3 "Acme Zebra" none (by decide)

/-- Counterexample for C7: a retained Candid hit with a nonempty snippet is
excluded from the digest — the summary is the empty-digest sentinel even
though a queried source retained a hit. -/
theorem c7_counterexample :
    (search_foundation (some "k") qfnC7 "Acme Zebra" none).map
      (fun p => (p.1.summary, p.1.candid.length)) =
      .ok ("No results found.", 1) := rfl

/- ### C8 -/

theorem foldl_urlStep_inv (l : List String) :
    ∀ urls : List String, urls.Nodup →
      (∀ u ∈ urls, u ≠ "" ∧
        (SKIP_DOMAINS.any (fun d => containsSub d.data u.data)) = false) →
      (l.foldl urlStep urls).Nodup ∧
      ∀ u ∈ l.foldl urlStep urls, u ≠ "" ∧
        (SKIP_DOMAINS.any (fun d => containsSub d.data u.data)) = false := by
  induction l with
  | nil => intro urls h1 h2; exact ⟨h1, h2⟩
  | cons s l ih =>
    intro urls h1 h2
    rw [List.foldl_cons]
    unfold urlStep
    by_cases hc : extractUrl s ≠ "" ∧ extractUrl s ∉ urls ∧
        (SKIP_DOMAINS.any (fun d => containsSub d.data (extractUrl s).data)) = false
    · rw [if_pos hc]
      refine ih _ ?_ ?_
      · rw [← List.concat_eq_append]
        exact List.Nodup.concat hc.2.1 h1
      · intro u hu
        rcases List.mem_append.mp hu with h | h
        · exact h2 u h
        · rw [List.mem_singleton] at h
          subst h
          exact ⟨hc.1, hc.2.2⟩
    · rw [if_neg hc]
      exact ih urls h1 h2

/-- C8 (amended): the deduplication and internal-redirect denylist hold for
the sink's URL extraction (`_extract_urls`), whose output has no duplicate
URLs, no URL matching a denylisted domain, and no empty URL. The sources
carried by a `ScreeningResult` are not covered (see the counterexample). -/
theorem c8_extracted_urls_invariant (sources : List String) (u : String)
    (hu : u ∈ _extract_urls (some sources)) :
    (_extract_urls (some sources)).Nodup ∧
    (SKIP_DOMAINS.any (fun d => containsSub d.data u.data)) = false ∧ u ≠ "" := by
  have h := foldl_urlStep_inv sources [] List.nodup_nil (by intro u hu; cases hu)
  have hu2 : u ∈ sources.foldl urlStep [] := hu
  exact ⟨h.1, (h.2 u hu2).2, (h.2 u hu2).1⟩

/-- Witness for C8 at a concrete source list. -/
theorem c8_witness :
    "https://x.example/p" ∈ _extract_urls (some ["x.example (https://x.example/p)"]) ∧
    (_extract_urls (some ["x.example (https://x.example/p)"])).Nodup ∧
    (SKIP_DOMAINS.any
      (fun d => containsSub d.data "https://x.example/p".data)) = false := by
  have hm : "https://x.example/p" ∈
      _extract_urls (some ["x.example (https://x.example/p)"]) := by decide
  have h := c8_extracted_urls_invariant ["x.example (https://x.example/p)"]
    "https://x.example/p" hm
  exact ⟨hm, h.1, h.2.1⟩

/-- Counterexample for C8: the sources carried by a `ScreeningResult` can
contain a citation whose URL matches the internal-redirect denylist — the
denylist is enforced only in the sink's extraction, not on the Decision's
source list. -/
theorem c8_counterexample :
    (screen_grant none qfn0 loads0 (.ok respC8) grant0).sources =
      ["T (https://vertexaisearch.cloud.google.com/grounding-api-redirect/xyz)"] ∧
    containsSub "vertexaisearch.cloud.google.com".data
      (extractUrl
        "T (https://vertexaisearch.cloud.google.com/grounding-api-redirect/xyz)").data =
      true :=
  ⟨rfl, by decide⟩

/- ### C9 -/

theorem char_ofNat_toNat (m : Nat) (h1 : m < 55296) : (Char.ofNat m).toNat = m := by
  rw [Char.ofNat, dif_pos (Or.inl h1)]
  rfl

theorem toLower_toLower (c : Char) : c.toLower.toLower = c.toLower := by
  by_cases h : c.toNat ≥ 65 ∧ c.toNat ≤ 90
  · have h1 : c.toLower = Char.ofNat (c.toNat + 32) := by
      show (if c.toNat ≥ 65 ∧ c.toNat ≤ 90 then Char.ofNat (c.toNat + 32) else c) = _
      rw [if_pos h]
    have hv : (Char.ofNat (c.toNat + 32)).toNat = c.toNat + 32 :=
      char_ofNat_toNat _ (by omega)
    rw [h1]
    show (if (Char.ofNat (c.toNat + 32)).toNat ≥ 65 ∧
        (Char.ofNat (c.toNat + 32)).toNat ≤ 90 then _ else _) = _
    rw [if_neg (by rw [hv]; omega)]
  · have h1 : c.toLower = c := by
      show (if c.toNat ≥ 65 ∧ c.toNat ≤ 90 then Char.ofNat (c.toNat + 32) else c) = _
      rw [if_neg h]
    rw [h1, h1]

theorem splitWsAux_tokens (l : List Char) :
    ∀ acc : List Char, (∀ c ∈ acc, c.isWhitespace = false) →
      ∀ t ∈ splitWsAux l acc, t ≠ [] ∧ ∀ c ∈ t, c.isWhitespace = false := by
  induction l with
  | nil =>
    intro acc hacc t ht
    simp only [splitWsAux] at ht
    by_cases he : acc.isEmpty
    · rw [if_pos he] at ht
      simp at ht
    · rw [if_neg he] at ht
      rw [List.mem_singleton] at ht
      subst ht
      refine ⟨?_, ?_⟩
      · intro hrev
        rw [List.reverse_eq_nil_iff] at hrev
        rw [hrev] at he
        exact he rfl
      · intro c hc
        rw [List.mem_reverse] at hc
        exact hacc c hc
  | cons a rest ih =>
    intro acc hacc t ht
    simp only [splitWsAux] at ht
    by_cases hw : a.isWhitespace
    · rw [if_pos hw] at ht
      by_cases he : acc.isEmpty
      · rw [if_pos he] at ht
        exact ih [] (by intro x hx; cases hx) t ht
      · rw [if_neg he] at ht
        rcases List.mem_cons.mp ht with h | h
        · subst h
          refine ⟨?_, ?_⟩
          · intro hrev
            rw [List.reverse_eq_nil_iff] at hrev
            rw [hrev] at he
            exact he rfl
          · intro x hx
            rw [List.mem_reverse] at hx
            exact hacc x hx
        · exact ih [] (by intro x hx; cases hx) t h
    · rw [if_neg hw] at ht
      refine ih (a :: acc) ?_ t ht
      intro x hx
      rcases List.mem_cons.mp hx with h | h
      · subst h
        exact Bool.eq_false_iff.mpr hw
      · exact hacc x h

theorem splitWsAux_mem_input (l : List Char) :
    ∀ acc t, t ∈ splitWsAux l acc → ∀ c ∈ t, c ∈ l ∨ c ∈ acc := by
  induction l with
  | nil =>
    intro acc t ht c hc
    simp only [splitWsAux] at ht
    by_cases he : acc.isEmpty
    · rw [if_pos he] at ht
      simp at ht
    · rw [if_neg he] at ht
      rw [List.mem_singleton] at ht
      subst ht
      right
      exact List.mem_reverse.mp hc
  | cons a rest ih =>
    intro acc t ht c hc
    simp only [splitWsAux] at ht
    by_cases hw : a.isWhitespace
    · rw [if_pos hw] at ht
      by_cases he : acc.isEmpty
      · rw [if_pos he] at ht
        rcases ih [] t ht c hc with h | h
        · left; exact List.mem_cons_of_mem a h
        · exact absurd h (List.not_mem_nil c)
      · rw [if_neg he] at ht
        rcases List.mem_cons.mp ht with h | h
        · subst h
          right
          exact List.mem_reverse.mp hc
        · rcases ih [] t h c hc with h2 | h2
          · left; exact List.mem_cons_of_mem a h2
          · exact absurd h2 (List.not_mem_nil c)
    · rw [if_neg hw] at ht
      rcases ih (a :: acc) t ht c hc with h | h
      · left; exact List.mem_cons_of_mem a h
      · rcases List.mem_cons.mp h with h2 | h2
        · left; exact List.mem_cons.mpr (Or.inl h2)
        · right; exact h2

theorem splitWsAux_word (t : List Char) (h : ∀ c ∈ t, c.isWhitespace = false) :
    ∀ (rest acc : List Char),
      splitWsAux (t ++ rest) acc = splitWsAux rest (t.reverse ++ acc) := by
  induction t with
  | nil => intro rest acc; simp
  | cons c t ih =>
    intro rest acc
    have hc : c.isWhitespace = false := h c (List.mem_cons_self c t)
    rw [List.cons_append]
    simp only [splitWsAux]
    rw [if_neg (by simp [hc])]
    rw [ih (fun x hx => h x (List.mem_cons_of_mem c hx)) rest (c :: acc)]
    congr 1
    simp

theorem splitWsAux_joinSpace (ts : List (List Char))
    (h : ∀ t ∈ ts, t ≠ [] ∧ ∀ c ∈ t, c.isWhitespace = false) :
    splitWsAux (joinSpace ts) [] = ts := by
  induction ts with
  | nil => rfl
  | cons t ts ih =>
    cases ts with
    | nil =>
      have ht := h t (List.mem_cons_self t [])
      simp only [joinSpace]
      rw [show t = t ++ ([] : List Char) by simp, splitWsAux_word t ht.2 [] []]
      simp only [splitWsAux, List.append_nil]
      rw [if_neg (by simp [List.isEmpty_iff, List.reverse_eq_nil_iff]; exact ht.1)]
      simp
    | cons t2 ts2 =>
      have ht := h t (List.mem_cons_self t (t2 :: ts2))
      have hrest : ∀ u ∈ t2 :: ts2, u ≠ [] ∧ ∀ c ∈ u, c.isWhitespace = false :=
        fun u hu => h u (List.mem_cons_of_mem t hu)
      simp only [joinSpace]
      rw [splitWsAux_word t ht.2]
      simp only [splitWsAux]
      rw [if_pos (by decide), if_neg (by
        simp [List.isEmpty_iff, List.reverse_eq_nil_iff]
        exact ht.1)]
      rw [ih hrest]
      simp

theorem joinSpace_last (ts : List (List Char)) :
    ts ≠ [] → (∀ t ∈ ts, t ≠ [] ∧ ∀ c ∈ t, c.isWhitespace = false) →
    ∃ l' c, joinSpace ts = l' ++ [c] ∧ c.isWhitespace = false := by
  induction ts with
  | nil => intro h; exact absurd rfl h
  | cons t ts ih =>
    intro _ h
    cases ts with
    | nil =>
      have ht := h t (List.mem_cons_self t [])
      rcases List.eq_nil_or_concat t with hnil | ⟨l', c, rfl⟩
      · exact absurd hnil ht.1
      · exact ⟨l', c, by simp [joinSpace], ht.2 c (by simp)⟩
    | cons t2 ts2 =>
      obtain ⟨l', c, hj, hc⟩ := ih (by simp)
        (fun u hu => h u (List.mem_cons_of_mem t hu))
      refine ⟨t ++ ' ' :: l', c, ?_, hc⟩
      simp only [joinSpace]
      rw [hj]
      simp

theorem stripChars_eq_self {l : List Char} (c0 : Char) (l1 : List Char)
    (c1 : Char) (l2 : List Char) (he1 : l = c0 :: l1) (he2 : l = l2 ++ [c1])
    (h0 : c0.isWhitespace = false) (h1 : c1.isWhitespace = false) :
    stripChars l = l := by
  have hd : l.dropWhile Char.isWhitespace = l := by
    rw [he1, List.dropWhile_cons, if_neg (by simp [h0])]
  have hr : l.reverse.dropWhile Char.isWhitespace = l.reverse := by
    rw [he2, List.reverse_append]
    simp only [List.reverse_singleton, List.singleton_append]
    rw [List.dropWhile_cons, if_neg (by simp [h1])]
  unfold stripChars
  rw [hd, hr, List.reverse_reverse]

theorem stripChars_joinSpace (ts : List (List Char)) (hne : ts ≠ [])
    (h : ∀ t ∈ ts, t ≠ [] ∧ ∀ c ∈ t, c.isWhitespace = false) :
    stripChars (joinSpace ts) = joinSpace ts := by
  obtain ⟨l', c1, hj, hc1⟩ := joinSpace_last ts hne h
  cases ts with
  | nil => exact absurd rfl hne
  | cons t ts' =>
    have ht := h t (List.mem_cons_self t ts')
    obtain ⟨c0, t', rfl⟩ : ∃ c0 t', t = c0 :: t' := by
      cases t with
      | nil => exact absurd rfl ht.1
      | cons a b => exact ⟨a, b, rfl⟩
    have hc0 : c0.isWhitespace = false := ht.2 c0 (List.mem_cons_self c0 t')
    have hhead : ∃ r, joinSpace ((c0 :: t') :: ts') = c0 :: r := by
      cases ts' with
      | nil => exact ⟨t', by simp [joinSpace]⟩
      | cons u us => exact ⟨t' ++ ' ' :: joinSpace (u :: us), by simp [joinSpace]⟩
    obtain ⟨r, hr⟩ := hhead
    exact stripChars_eq_self c0 r c1 l' hr hj hc0 hc1

theorem map_toLower_fixed (l : List Char) (h : ∀ c ∈ l, c.toLower = c) :
    l.map Char.toLower = l := by
  induction l with
  | nil => rfl
  | cons c l ih =>
    rw [List.map_cons, h c (List.mem_cons_self c l),
      ih (fun x hx => h x (List.mem_cons_of_mem c hx))]

theorem mem_joinSpace {c : Char} :
    ∀ {ts : List (List Char)}, c ∈ joinSpace ts → c = ' ' ∨ ∃ t ∈ ts, c ∈ t := by
  intro ts
  induction ts with
  | nil => intro h; exact absurd h (List.not_mem_nil c)
  | cons t ts ih =>
    intro h
    cases ts with
    | nil =>
      right
      exact ⟨t, List.mem_cons_self t [], by simpa [joinSpace] using h⟩
    | cons u us =>
      simp only [joinSpace] at h
      rcases List.mem_append.mp h with h2 | h2
      · right; exact ⟨t, List.mem_cons_self t (u :: us), h2⟩
      · rcases List.mem_cons.mp h2 with h3 | h3
        · left; exact h3
        · rcases ih h3 with h4 | ⟨v, hv, hcv⟩
          · left; exact h4
          · right; exact ⟨v, List.mem_cons_of_mem t hv, hcv⟩

theorem joinSpace_ne_nil (ts : List (List Char)) (hne : ts ≠ [])
    (h : ∀ t ∈ ts, t ≠ [] ∧ ∀ c ∈ t, c.isWhitespace = false) :
    joinSpace ts ≠ [] := by
  obtain ⟨l', c, hj, _⟩ := joinSpace_last ts hne h
  rw [hj]
  simp

theorem clean_fixed_point (cleaned : List (List Char))
    (hprop : ∀ t ∈ cleaned, t ≠ [] ∧ ∀ c ∈ t, c.isWhitespace = false)
    (hlower : ∀ t ∈ cleaned, ∀ c ∈ t, c.toLower = c)
    (hfilter : ∀ t ∈ cleaned, decide (t ∉ removals) = true)
    (hne : cleaned ≠ []) :
    _clean_name (String.mk (joinSpace cleaned)) = String.mk (joinSpace cleaned) := by
  have hfix : ∀ c ∈ joinSpace cleaned, c.toLower = c := by
    intro c hc
    rcases mem_joinSpace hc with h | ⟨t, ht, hct⟩
    · rw [h]; decide
    · exact hlower t ht c hct
  have hlow : (pyLower (String.mk (joinSpace cleaned))).data = joinSpace cleaned := by
    show (joinSpace cleaned).map Char.toLower = joinSpace cleaned
    exact map_toLower_fixed _ hfix
  have hsplit : splitWsAux (joinSpace cleaned) [] = cleaned :=
    splitWsAux_joinSpace cleaned hprop
  have hfil : cleaned.filter (fun t => decide (t ∉ removals)) = cleaned :=
    List.filter_eq_self.mpr hfilter
  have hstrip : stripChars (joinSpace cleaned) = joinSpace cleaned :=
    stripChars_joinSpace cleaned hne hprop
  have hempty : (joinSpace cleaned).isEmpty = false := by
    rw [List.isEmpty_eq_false_iff_exists_mem]
    obtain ⟨c0, r, hc0r⟩ : ∃ c0 r, joinSpace cleaned = c0 :: r := by
      cases hj : joinSpace cleaned with
      | nil => exact absurd hj (joinSpace_ne_nil cleaned hne hprop)
      | cons a b => exact ⟨a, b, rfl⟩
    exact ⟨c0, by rw [hc0r]; exact List.mem_cons_self c0 r⟩
  simp only [_clean_name]
  rw [hlow, hsplit, hfil, hstrip, hempty]
  simp

theorem clean_name_cases (name : String) :
    _clean_name name = name ∨
    ∃ cleaned : List (List Char),
      _clean_name name = String.mk (joinSpace cleaned) ∧
      (∀ t ∈ cleaned, t ≠ [] ∧ ∀ c ∈ t, c.isWhitespace = false) ∧
      (∀ t ∈ cleaned, ∀ c ∈ t, c.toLower = c) ∧
      (∀ t ∈ cleaned, decide (t ∉ removals) = true) ∧
      cleaned ≠ [] := by
  by_cases hres : (stripChars (joinSpace ((splitWsAux (pyLower name).data []).filter
      (fun t => decide (t ∉ removals))))).isEmpty
  · left
    unfold _clean_name
    rw [if_pos hres]
  · right
    refine ⟨(splitWsAux (pyLower name).data []).filter (fun t => decide (t ∉ removals)),
      ?_, ?_, ?_, ?_, ?_⟩
    · have hprop : ∀ t ∈ (splitWsAux (pyLower name).data []).filter
          (fun u => decide (u ∉ removals)), t ≠ [] ∧ ∀ c ∈ t, c.isWhitespace = false :=
        fun t ht => splitWsAux_tokens _ [] (by intro x hx; cases hx) t
          (List.mem_of_mem_filter ht)
      have hne : (splitWsAux (pyLower name).data []).filter
          (fun u => decide (u ∉ removals)) ≠ [] := by
        intro hnil
        apply hres
        rw [hnil]
        rfl
      unfold _clean_name
      rw [if_neg hres, stripChars_joinSpace _ hne hprop]
    · exact fun t ht => splitWsAux_tokens _ [] (by intro x hx; cases hx) t
        (List.mem_of_mem_filter ht)
    · intro t ht c hct
      have hmem : c ∈ (pyLower name).data := by
        rcases splitWsAux_mem_input _ [] t (List.mem_of_mem_filter ht) c hct with h | h
        · exact h
        · exact absurd h (List.not_mem_nil c)
      rw [show (pyLower name).data = name.data.map Char.toLower from rfl] at hmem
      rcases List.mem_map.mp hmem with ⟨d, _, rfl⟩
      exact toLower_toLower d
    · exact fun t ht => (List.mem_filter.mp ht).2
    · intro hnil
      apply hres
      rw [hnil]
      rfl

/-- C9 (amended): name normalization is idempotent as a function:
`_clean_name (_clean_name name) = _clean_name name` for every name. An
already-noise-free name is returned unchanged only when it is additionally
lowercase and whitespace-normalized (see the counterexample). -/
theorem c9_clean_name_idempotent (name : String) :
    _clean_name (_clean_name name) = _clean_name name := by
  rcases clean_name_cases name with h | ⟨cleaned, heq, hp, hl, hf, hn⟩
  · rw [h]
    exact h
  · rw [heq]
    exact clean_fixed_point cleaned hp hl hf hn

/-- Counterexample for C9: "Acme" contains no noise token and no leading
marker, yet `_clean_name` lowercases it — the result differs from the input. -/
theorem c9_counterexample : _clean_name "Acme" = "acme" ∧ "acme" ≠ "Acme" :=
  ⟨by decide, by decide⟩

end GrantScreener
